import Mathlib

/-!
Shallow embedding of the ingestion-to-aggregation pipeline of the monitored
Uniswap V3 pool indexer (TypeScript sources under src/), together with proofs
about the embedded operations.

Modelling conventions:
* JavaScript numbers are modelled as exact rationals (ℚ); integers, block
  numbers and timestamps (millisecond epoch values of JS Date) as ℤ;
  nullable columns and values as Option.
* SQL stores are modelled as lists of rows; an upsert is a pure function on
  such a list.
* Network lookups (the quoting contract / price index) are modelled as
  Option-valued oracle arguments: a `none` oracle result is an unavailable
  source, any `some` result is a successful quote.
-/

namespace UniswapDemo

/-- JavaScript numeric logical-or: `x || d` yields `d` exactly when `x` is
the falsy number 0, and `x` otherwise (NaN does not arise in the model). -/
def jsOr (x d : ℚ) : ℚ := if x = 0 then d else x

/-- Swap direction tag, `swap_type` column values. -/
inductive SwapType where
  | BUY
  | SELL
deriving DecidableEq

/-- A row of the `swaps` table, as written by `saveSwap`
(src/storage/swapRepository.ts). -/
structure SwapRow where
  transaction_hash : String
  block_number : ℤ
  block_timestamp : ℤ
  log_index : ℤ
  sender : String
  recipient : String
  amount0 : ℤ
  amount1 : ℤ
  sqrt_price_x96 : ℤ
  liquidity : ℤ
  tick : ℤ
  amount0_readable : Option ℚ := none
  amount1_readable : Option ℚ := none
  price_token0 : Option ℚ := none
  price_token1 : Option ℚ := none
  swap_type : SwapType
  usd_value : Option ℚ := none
  gas_used : Option ℤ := none
  gas_price : Option ℤ := none
  transaction_fee : Option ℚ := none
deriving DecidableEq

/-- Whether a stored row collides with the natural key
`(transaction_hash, log_index)`. -/
def keyMatches (h : String) (i : ℤ) (r : SwapRow) : Bool :=
  r.transaction_hash == h && r.log_index == i

/-- `saveSwap` (src/storage/swapRepository.ts): INSERT INTO swaps ...
ON CONFLICT (transaction_hash, log_index) DO NOTHING. -/
def saveSwap (store : List SwapRow) (s : SwapRow) : List SwapRow :=
  if store.any (keyMatches s.transaction_hash s.log_index) then store
  else store ++ [s]

/-- Number of rows of the store carrying a given natural key. -/
def countKey (store : List SwapRow) (h : String) (i : ℤ) : ℕ :=
  (store.filter (keyMatches h i)).length

/-- One hour in milliseconds (JS `setHours(getHours() + 1)` on an
hour-aligned Date). -/
def hourMs : ℤ := 3600000

/-- One day in milliseconds. -/
def dayMs : ℤ := 86400000

/-- The `HourlyStatsData` shape (src/storage/hourlyStatsRepository.ts). -/
structure HourlyStatsData where
  hour_start : ℤ
  hour_end : ℤ
  open_price : ℚ
  high_price : ℚ
  low_price : ℚ
  close_price : ℚ
  total_transactions : ℕ
  buy_transactions : ℕ
  sell_transactions : ℕ
  volume_token0 : ℚ
  volume_token1 : ℚ
  volume_usd : ℚ
  fees_token0 : ℚ
  fees_token1 : ℚ
  fees_usd : ℚ
  unique_addresses : ℕ
  unique_senders : ℕ
  avg_liquidity : Option ℤ
  min_liquidity : Option ℤ
  max_liquidity : Option ℤ
deriving DecidableEq

/-- Ascending `ORDER BY block_timestamp` of the SQL queries, realised as an
insertion sort (the SQL leaves the relative order of equal timestamps
unspecified; the model fixes one). -/
def orderByTimestampAsc (l : List SwapRow) : List SwapRow :=
  l.insertionSort (fun a b => a.block_timestamp ≤ b.block_timestamp)

/-- The rows a bucket query returns: swaps inside the window with a non-null
`price_token0`, in ascending timestamp order. The window is right-open for
the hourly query (`< hourEnd`) and right-closed for the daily one, so the
bound is a parameter. -/
def bucketRows (swaps : List SwapRow) (lo : ℤ) (hi : ℤ) (closedHi : Bool) :
    List SwapRow :=
  orderByTimestampAsc (swaps.filter (fun s =>
    decide (lo ≤ s.block_timestamp) &&
    (if closedHi then decide (s.block_timestamp ≤ hi)
      else decide (s.block_timestamp < hi)) &&
    s.price_token0.isSome))

/-- `createEmptyStats` of HourlyStatsService: the zero-filled bucket. -/
def createEmptyHourlyStats (hourStart hourEnd : ℤ) : HourlyStatsData where
  hour_start := hourStart
  hour_end := hourEnd
  open_price := 0
  high_price := 0
  low_price := 0
  close_price := 0
  total_transactions := 0
  buy_transactions := 0
  sell_transactions := 0
  volume_token0 := 0
  volume_token1 := 0
  volume_usd := 0
  fees_token0 := 0
  fees_token1 := 0
  fees_usd := 0
  unique_addresses := 0
  unique_senders := 0
  avg_liquidity := none
  min_liquidity := none
  max_liquidity := none

/-- The OHLC price list of a bucket: `Number(price_token0)` of each selected
row, keeping only finite positive values (the selected rows all have a
non-null price, so the NaN filter drops nothing in the model). -/
def bucketPrices (sel : List SwapRow) : List ℚ :=
  (sel.filterMap (fun s => s.price_token0)).filter (fun p => decide (0 < p))

/-- `HourlyStatsService.generateHourlyStats` (hourly stats service shipped
with src/services/quoterService.ts), as a pure function of the swaps store.
`prices[0] || 0` and `prices[prices.length - 1] || 0` are modelled with
`Option.getD 0`; every element of `prices` is positive, so the JS falsy-zero
branch of `||` coincides. `Math.max(...prices, 0)` is a fold of `max` over
the prices together with the extra literal 0, and likewise for `Math.min`. -/
def generateHourlyStats (swaps : List SwapRow) (hourStart : ℤ) :
    HourlyStatsData :=
  let hourEnd := hourStart + hourMs
  let sel := bucketRows swaps hourStart hourEnd false
  if sel.isEmpty then createEmptyHourlyStats hourStart hourEnd
  else
    let prices := bucketPrices sel
    let openPrice := prices.head?.getD 0
    let closePrice := prices.getLast?.getD 0
    let highPrice := prices.foldl max 0
    let lowPrice := jsOr ((prices.filter (fun p => decide (0 < p))).foldl min 0)
      openPrice
    let liquidities := sel.map (fun s => (s.liquidity : ℚ))
    { hour_start := hourStart
      hour_end := hourEnd
      open_price := openPrice
      high_price := highPrice
      low_price := lowPrice
      close_price := closePrice
      total_transactions := sel.length
      buy_transactions := (sel.filter (fun s => s.swap_type == SwapType.BUY)).length
      sell_transactions := (sel.filter (fun s => s.swap_type == SwapType.SELL)).length
      volume_token0 := sel.foldl (fun acc s => acc + |s.amount0_readable.getD 0|) 0
      volume_token1 := sel.foldl (fun acc s => acc + |s.amount1_readable.getD 0|) 0
      volume_usd := sel.foldl (fun acc s => acc + s.usd_value.getD 0) 0
      fees_token0 := (sel.foldl (fun acc s => acc + |s.amount0_readable.getD 0|) 0) * (5 / 10000)
      fees_token1 := (sel.foldl (fun acc s => acc + |s.amount1_readable.getD 0|) 0) * (5 / 10000)
      fees_usd := (sel.foldl (fun acc s => acc + s.usd_value.getD 0) 0) * (5 / 10000)
      unique_addresses := ((sel.map (fun s => s.sender)) ++ (sel.map (fun s => s.recipient))).dedup.length
      unique_senders := (sel.map (fun s => s.sender)).dedup.length
      avg_liquidity := if liquidities.isEmpty then none
        else some ⌊(liquidities.foldl (· + ·) 0) / (liquidities.length : ℚ)⌋
      min_liquidity := match liquidities with
        | [] => none
        | x :: xs => some ⌊xs.foldl min x⌋
      max_liquidity := match liquidities with
        | [] => none
        | x :: xs => some ⌊xs.foldl max x⌋ }

/-- A row of the `pool_snapshots` table (`PoolSnapshotData`,
pool snapshot repository). -/
structure PoolSnapshotRow where
  snapshot_time : ℤ
  block_number : ℤ
  sqrt_price_x96 : ℤ
  tick : ℤ
  liquidity : ℤ
  price_token0 : Option ℚ := none
  price_token1 : Option ℚ := none
  tvl_usd : Option ℚ := none
  token0_balance : Option ℚ := none
  token1_balance : Option ℚ := none
  volume_24h_usd : Option ℚ := none
  fees_24h_usd : Option ℚ := none
  transactions_24h : Option ℤ := none
deriving DecidableEq

/-- The `DailyStatsData` shape (src/storage/dailyStatsRepository.ts). -/
structure DailyStatsData where
  date : ℤ
  open_price : ℚ
  high_price : ℚ
  low_price : ℚ
  close_price : ℚ
  total_transactions : ℕ
  buy_transactions : ℕ
  sell_transactions : ℕ
  volume_token0 : ℚ
  volume_token1 : ℚ
  volume_usd : ℚ
  fees_token0 : ℚ
  fees_token1 : ℚ
  fees_usd : ℚ
  unique_addresses : ℕ
  new_addresses : ℕ
  avg_tvl_usd : Option ℚ
  end_tvl_usd : Option ℚ
  whale_transactions : ℕ
  largest_transaction_usd : Option ℚ
deriving DecidableEq

/-- Millisecond timestamps falling on the same calendar day
(`snapshot_time::date = dayStart::date` for non-negative epoch times). -/
def sameDay (a b : ℤ) : Bool := a / dayMs == b / dayMs

/-- `DailyStatsService.generateDailyStats` (daily stats service shipped with
the user stats service source), as a pure function of the swaps and
pool_snapshots stores. `dayStart` is the local midnight of the requested
date; the selection window is `[dayStart, dayStart + dayMs - 1]`, both ends
included (`setHours(23,59,59,999)` and `<=`). Truthiness of the SQL
aggregate results (`tvlStats[0]?.avg_tvl_usd ? ... : null`) makes a zero or
absent aggregate come out as null. -/
def generateDailyStats (swaps : List SwapRow) (snapshots : List PoolSnapshotRow)
    (dayStart : ℤ) : DailyStatsData :=
  let dayEnd := dayStart + dayMs - 1
  let sel := bucketRows swaps dayStart dayEnd true
  if sel.isEmpty then
    { date := dayStart
      open_price := 0, high_price := 0, low_price := 0, close_price := 0
      total_transactions := 0, buy_transactions := 0, sell_transactions := 0
      volume_token0 := 0, volume_token1 := 0, volume_usd := 0
      fees_token0 := 0, fees_token1 := 0, fees_usd := 0
      unique_addresses := 0, new_addresses := 0
      avg_tvl_usd := none, end_tvl_usd := none
      whale_transactions := 0, largest_transaction_usd := none }
  else
    let prices := bucketPrices sel
    let openPrice := prices.head?.getD 0
    let closePrice := prices.getLast?.getD 0
    let highPrice := prices.foldl max 0
    let lowPrice := jsOr ((prices.filter (fun p => decide (0 < p))).foldl min 0)
      openPrice
    let previousDayRows := swaps.filter (fun s =>
      decide (dayStart - dayMs ≤ s.block_timestamp) &&
      decide (s.block_timestamp < dayStart))
    let previousAddresses := ((previousDayRows.map (fun s => s.sender)) ++
      (previousDayRows.map (fun s => s.recipient))).dedup
    let todayAddresses := ((sel.map (fun s => s.sender)) ++
      (sel.map (fun s => s.recipient))).dedup
    let largestTransactionUsd :=
      (sel.map (fun s => s.usd_value.getD 0)).foldl max 0
    let tvls := (snapshots.filter (fun p =>
      decide (dayStart ≤ p.snapshot_time) && decide (p.snapshot_time ≤ dayEnd) &&
      p.tvl_usd.isSome)).filterMap (fun p => p.tvl_usd)
    let avgTvl : Option ℚ :=
      if tvls.isEmpty then none
      else
        let a := (tvls.foldl (· + ·) 0) / (tvls.length : ℚ)
        if a = 0 then none else some a
    let endTvls := (snapshots.filter (fun p =>
      decide (dayStart ≤ p.snapshot_time) && decide (p.snapshot_time ≤ dayEnd) &&
      p.tvl_usd.isSome && sameDay p.snapshot_time dayStart)).filterMap
      (fun p => p.tvl_usd)
    let endTvl : Option ℚ :=
      match endTvls with
      | [] => none
      | x :: xs =>
        let m := xs.foldl max x
        if m = 0 then none else some m
    { date := dayStart
      open_price := openPrice
      high_price := highPrice
      low_price := lowPrice
      close_price := closePrice
      total_transactions := sel.length
      buy_transactions := (sel.filter (fun s => s.swap_type == SwapType.BUY)).length
      sell_transactions := (sel.filter (fun s => s.swap_type == SwapType.SELL)).length
      volume_token0 := sel.foldl (fun acc s => acc + |s.amount0_readable.getD 0|) 0
      volume_token1 := sel.foldl (fun acc s => acc + |s.amount1_readable.getD 0|) 0
      volume_usd := sel.foldl (fun acc s => acc + s.usd_value.getD 0) 0
      fees_token0 := (sel.foldl (fun acc s => acc + |s.amount0_readable.getD 0|) 0) * (5 / 10000)
      fees_token1 := (sel.foldl (fun acc s => acc + |s.amount1_readable.getD 0|) 0) * (5 / 10000)
      fees_usd := (sel.foldl (fun acc s => acc + s.usd_value.getD 0) 0) * (5 / 10000)
      unique_addresses := todayAddresses.length
      new_addresses := (todayAddresses.filter
        (fun a => !(previousAddresses.contains a))).length
      avg_tvl_usd := avgTvl
      end_tvl_usd := endTvl
      whale_transactions := (sel.filter
        (fun s => decide ((10000 : ℚ) < s.usd_value.getD 0))).length
      largest_transaction_usd :=
        if 0 < largestTransactionUsd then some largestTransactionUsd else none }

/-- The swap picked by `ORDER BY block_timestamp DESC LIMIT 1`: a row of
maximal timestamp (ties are unspecified in SQL; the model prefers the later
list element). -/
def maxByTimestamp : List SwapRow → Option SwapRow
  | [] => none
  | s :: rest =>
    match maxByTimestamp rest with
    | none => some s
    | some a => if s.block_timestamp < a.block_timestamp then some a else some s

/-- The most recent swap strictly before `t` carrying a non-null
`price_token0`. -/
def latestPricedSwapBefore (swaps : List SwapRow) (t : ℤ) : Option SwapRow :=
  maxByTimestamp (swaps.filter (fun s =>
    decide (s.block_timestamp < t) && s.price_token0.isSome))

/-- `HourlyStatsService.getPreviousHourClosePrice`: read the close price of
the `hourly_stats` row one hour before `currentHourStart`; on a missing row
or a falsy (zero) close price, fall back to the price of the most recent
priced swap before `currentHourStart`; a falsy fallback price yields null. -/
def getPreviousHourClosePrice (hstats : List HourlyStatsData)
    (swaps : List SwapRow) (currentHourStart : ℤ) : Option ℚ :=
  let previousHourStart := currentHourStart - hourMs
  let fallback : Option ℚ :=
    match latestPricedSwapBefore swaps currentHourStart with
    | some s =>
      match s.price_token0 with
      | some p => if p = 0 then none else some p
      | none => none
    | none => none
  match (hstats.filter (fun r => r.hour_start == previousHourStart)).head? with
  | some row => if row.close_price = 0 then fallback else some row.close_price
  | none => fallback

/-- `saveHourlyStats` (src/storage/hourlyStatsRepository.ts): INSERT ...
ON CONFLICT (hour_start) DO UPDATE SET `<every non-key field>` =
EXCLUDED.*, which replaces the conflicting row wholesale. -/
def saveHourlyStats (store : List HourlyStatsData) (stats : HourlyStatsData) :
    List HourlyStatsData :=
  if store.any (fun r => r.hour_start == stats.hour_start) then
    store.map (fun r => if r.hour_start == stats.hour_start then stats else r)
  else store ++ [stats]

/-- The hourly-rollup portion of `SchedulerService.executeHourlyTasks`
(src/services/metricsService.ts), run at the top of hour `hourStart`: roll
up the previous hour, and when that bucket came out with a zero open price,
substitute the carry-forward price into all four OHLC fields before the
upsert. The pool-snapshot step touches a different table and is omitted. -/
def executeHourlyStatsTask (hstats : List HourlyStatsData)
    (swaps : List SwapRow) (hourStart : ℤ) : List HourlyStatsData :=
  let previousHourStart := hourStart - hourMs
  let previousClosePrice := getPreviousHourClosePrice hstats swaps hourStart
  let stats0 := generateHourlyStats swaps previousHourStart
  let stats :=
    match previousClosePrice with
    | some p =>
      if stats0.open_price = 0 then
        { stats0 with open_price := p, low_price := p,
                      high_price := p, close_price := p }
      else stats0
    | none => stats0
  saveHourlyStats hstats stats

/-- The recognised stable-coin table of `QuoterService`
(src/services/quoterService.ts), keyed by lower-case address. -/
def STABLE_COINS : List (String × String × ℕ) :=
  [("0xa0b86991c6218b36c1d19d4a2e9eb0ce3606eb48", ("USDC", 6)),
   ("0xdac17f958d2ee523a2206206994597c13d831ec7", ("USDT", 6)),
   ("0xaf88d065e77c8cc2239327c5edb3a432268e5831", ("USDC", 6)),
   ("0xfd086bc7cd5c481dcc9c85ebe478a1c0b69fcbb9", ("USDT", 6)),
   ("0xda10009cbd5d07dd0cecc66161fc93d7c9000da1", ("DAI", 18))]

/-- JS `String.prototype.toLowerCase`, character-wise (the addresses
involved are ASCII hex strings, for which this matches). -/
def jsToLower (s : String) : String := String.mk (s.data.map Char.toLower)

/-- `QuoterService.isStableCoin`. -/
def isStableCoin (tokenAddress : String) : Bool :=
  (STABLE_COINS.find? (fun e => e.1 == jsToLower tokenAddress)).isSome

/-- `QuoterService.calculateUSDValue`. The two `getTokenPriceInUSD` results
are oracle arguments (`none` = no price source resolved, whatever the
reason: quoting contract unavailable, cache miss plus network failure, and
so on); the function only consults them in the neither-token-stable branch,
mirroring the source, where the lookups happen inside that branch. -/
def calculateUSDValue (price0 price1 : Option ℚ) (amount0 amount1 : ℚ)
    (token0Address token1Address : String) : Option ℚ :=
  if isStableCoin token0Address then some |amount0|
  else if isStableCoin token1Address then some |amount1|
  else
    match price0, price1 with
    | some p0, some p1 => some ((|amount0| * p0 + |amount1| * p1) / 2)
    | some p0, none => some (|amount0| * p0)
    | none, some p1 => some (|amount1| * p1)
    | none, none => none

/-- The metadata of an ethers log object as seen by
`UniswapV3EventListener.extractEventLogInfo`: each field may be absent. -/
structure EventLogMeta where
  transactionHash : Option String
  blockNumber : Option ℤ
  index : Option ℤ
  logIndex : Option ℤ
deriving DecidableEq

/-- The extracted `EventLogInfo` record. -/
structure EventLogInfo where
  transaction_hash : String
  block_number : ℤ
  log_index : ℤ
deriving DecidableEq

/-- `UniswapV3EventListener.extractEventLogInfo`: `event.log` may itself be
absent. A missing or falsy transaction hash or block number yields null;
a missing log index falls back through `event.log?.index ??
event.log?.logIndex ?? 0`. -/
def extractEventLogInfo (eventLog : Option EventLogMeta) : Option EventLogInfo :=
  let logIdx := ((eventLog.bind (fun l => l.index)).orElse
    (fun _ => eventLog.bind (fun l => l.logIndex))).getD 0
  match eventLog.bind (fun l => l.transactionHash),
      eventLog.bind (fun l => l.blockNumber) with
  | some h, some b =>
    if h = "" ∨ b = 0 then none
    else some { transaction_hash := h, block_number := b, log_index := logIdx }
  | some _, none => none
  | none, _ => none

/-- `validateAndExtractLogInfo` performs the same extraction and only adds a
console warning on failure. -/
def validateAndExtractLogInfo (eventLog : Option EventLogMeta) :
    Option EventLogInfo :=
  extractEventLogInfo eventLog

/-- The typed swap record handed to the downstream handler (`SwapEventV3`). -/
structure SwapEventV3 where
  sender : String
  recipient : String
  amount0 : ℤ
  amount1 : ℤ
  sqrt_price_x96 : ℤ
  liquidity : ℤ
  tick : ℤ
  transaction_hash : String
  log_index : ℤ
  block_number : ℤ
deriving DecidableEq

/-- The body of the `contract.on("Swap", ...)` callback: validate the log
metadata and either drop the event (`none`, the downstream `onSwap` handler
is not invoked) or build the `SwapEventV3` record passed to the handler. -/
def handleSwapLog (sender recipient : String)
    (amount0 amount1 sqrtPriceX96 liquidity tick : ℤ)
    (eventLog : Option EventLogMeta) : Option SwapEventV3 :=
  (validateAndExtractLogInfo eventLog).map (fun logInfo =>
    { sender := sender
      recipient := recipient
      amount0 := amount0
      amount1 := amount1
      sqrt_price_x96 := sqrtPriceX96
      liquidity := liquidity
      tick := tick
      transaction_hash := logInfo.transaction_hash
      log_index := logInfo.log_index
      block_number := logInfo.block_number })

/-- User classification tags. -/
inductive UserType where
  | RETAIL
  | WHALE
  | BOT
  | LP
  | MEV
deriving DecidableEq

/-- A row of the `user_stats` table (`UserStatsData`,
src/storage/userStatsRepository.ts). -/
structure UserStatsRow where
  address : String
  total_transactions : ℤ
  buy_transactions : ℤ
  sell_transactions : ℤ
  total_volume_usd : ℚ
  largest_transaction_usd : Option ℚ := none
  first_transaction_at : Option ℤ := none
  last_transaction_at : Option ℤ := none
  is_liquidity_provider : Bool
  total_liquidity_provided_usd : ℚ
  user_type : Option UserType := none
deriving DecidableEq

/-- The per-event `transaction` argument of
`UserStatsService.updateUserStatsForAddress`: a null `swapType` marks a
liquidity event. -/
structure UserTxn where
  swapType : Option SwapType
  usdValue : ℚ
  transactionTime : ℤ
deriving DecidableEq

/-- `UserStatsService.calculateLargestTransaction`. `!existing` in the
source is JS falsiness: a null, undefined or zero existing value is
replaced by the (positive) new value. -/
def calculateLargestTransaction (existing : Option ℚ) (newValue : ℚ) :
    Option ℚ :=
  if newValue ≤ 0 then existing
  else
    match existing with
    | none => some newValue
    | some e => if e = 0 then some newValue else some (max e newValue)

/-- `UserStatsService.calculateFirstTransaction` (Date objects are always
truthy, so only a null existing value is replaced outright). -/
def calculateFirstTransaction (existing : Option ℤ) (newTime : ℤ) : ℤ :=
  match existing with
  | none => newTime
  | some e => if newTime < e then newTime else e

/-- `UserStatsService.calculateLastTransaction`. -/
def calculateLastTransaction (existing : Option ℤ) (newTime : ℤ) : ℤ :=
  match existing with
  | none => newTime
  | some e => if e < newTime then newTime else e

/-- `UserStatsService.determineUserType`. -/
def determineUserType (existing : Option UserStatsRow) (usdValue : ℚ)
    (isLiquidityProvider : Bool) : Option UserType :=
  if isLiquidityProvider ||
      (existing.map (fun r => r.is_liquidity_provider)).getD false then
    some UserType.LP
  else
    match existing.bind (fun r => r.user_type) with
    | some ut =>
      if ut ≠ UserType.LP then
        if 100000 < usdValue then some UserType.WHALE else some ut
      else if 100000 < usdValue then some UserType.WHALE
      else if usdValue < 100 then some UserType.RETAIL
      else none
    | none =>
      if 100000 < usdValue then some UserType.WHALE
      else if usdValue < 100 then some UserType.RETAIL
      else none

/-- The `stats` record built inside
`UserStatsService.updateUserStatsForAddress` from the row read for the
address (lines computing each field from `existingStats` and the incoming
transaction). -/
def computeNewUserStats (address : String) (existing : Option UserStatsRow)
    (t : UserTxn) (isLiquidityProvider : Bool) (liquidityValue : ℚ) :
    UserStatsRow where
  address := address
  total_transactions := (existing.map (fun r => r.total_transactions)).getD 0 +
    (if t.swapType.isSome then 1 else 0)
  buy_transactions := (existing.map (fun r => r.buy_transactions)).getD 0 +
    (if t.swapType = some SwapType.BUY then 1 else 0)
  sell_transactions := (existing.map (fun r => r.sell_transactions)).getD 0 +
    (if t.swapType = some SwapType.SELL then 1 else 0)
  total_volume_usd := (existing.map (fun r => r.total_volume_usd)).getD 0 +
    t.usdValue
  largest_transaction_usd := calculateLargestTransaction
    (existing.bind (fun r => r.largest_transaction_usd)) t.usdValue
  first_transaction_at := some (calculateFirstTransaction
    (existing.bind (fun r => r.first_transaction_at)) t.transactionTime)
  last_transaction_at := some (calculateLastTransaction
    (existing.bind (fun r => r.last_transaction_at)) t.transactionTime)
  is_liquidity_provider :=
    (existing.map (fun r => r.is_liquidity_provider)).getD false ||
    isLiquidityProvider
  total_liquidity_provided_usd :=
    (existing.map (fun r => r.total_liquidity_provided_usd)).getD 0 +
    (if isLiquidityProvider then liquidityValue else 0)
  user_type := determineUserType existing t.usdValue isLiquidityProvider

/-- Postgres LEAST: nulls are ignored, the result is null only when every
argument is. -/
def pgLeast (a b : Option ℤ) : Option ℤ :=
  match a, b with
  | none, none => none
  | some x, none => some x
  | none, some y => some y
  | some x, some y => some (min x y)

/-- Postgres GREATEST, dually. -/
def pgGreatest (a b : Option ℤ) : Option ℤ :=
  match a, b with
  | none, none => none
  | some x, none => some x
  | none, some y => some y
  | some x, some y => some (max x y)

/-- `saveOrUpdateUserStats` (src/storage/userStatsRepository.ts): the
INSERT ... ON CONFLICT (address) DO UPDATE merge, as a function of the
existing row for the address (if any) and the incoming row. Counters and
volumes take the EXCLUDED value, `largest_transaction_usd` is
GREATEST(COALESCE(old,0), COALESCE(new,0)), first/last transaction times
use LEAST/GREATEST over COALESCE, the LP flag is an OR, and `user_type` is
COALESCE(EXCLUDED.user_type, user_stats.user_type). -/
def saveOrUpdateUserStats (existing : Option UserStatsRow)
    (stats : UserStatsRow) : UserStatsRow :=
  match existing with
  | none => stats
  | some ex =>
    { address := ex.address
      total_transactions := stats.total_transactions
      buy_transactions := stats.buy_transactions
      sell_transactions := stats.sell_transactions
      total_volume_usd := stats.total_volume_usd
      largest_transaction_usd := some (max (ex.largest_transaction_usd.getD 0)
        (stats.largest_transaction_usd.getD 0))
      first_transaction_at := pgLeast
        (ex.first_transaction_at.orElse (fun _ => stats.first_transaction_at))
        stats.first_transaction_at
      last_transaction_at := pgGreatest
        (ex.last_transaction_at.orElse (fun _ => stats.last_transaction_at))
        stats.last_transaction_at
      is_liquidity_provider := ex.is_liquidity_provider ||
        stats.is_liquidity_provider
      total_liquidity_provided_usd := stats.total_liquidity_provided_usd
      user_type := stats.user_type.orElse (fun _ => ex.user_type) }

/-- One full `updateUserStatsForAddress` pass for an address: read the
existing row, compute the new row, merge-upsert it. The result is the row
stored for the address afterwards. -/
def updateUserStatsForAddress (existing : Option UserStatsRow)
    (address : String) (t : UserTxn) (isLiquidityProvider : Bool)
    (liquidityValue : ℚ) : UserStatsRow :=
  saveOrUpdateUserStats existing
    (computeNewUserStats address existing t isLiquidityProvider liquidityValue)

/-- A sequence of per-event updates for one address, applied in order
against the stored row (read-compute-merge each time). -/
def applyUserEvents (start : Option UserStatsRow) (address : String)
    (events : List (UserTxn × Bool × ℚ)) : Option UserStatsRow :=
  events.foldl (fun st e =>
    some (updateUserStatsForAddress st address e.1 e.2.1 e.2.2)) start

/-- Event kinds tracked by the metrics subsystem. -/
inductive MetricEventType where
  | swap
  | mint
  | burn
  | collect
deriving DecidableEq

/-- An `EventMetrics` record (src/services/metricsService.ts). -/
structure EventMetrics where
  event_type : MetricEventType
  event_timestamp : ℤ
  processing_start : ℤ
  processing_end : ℤ
  storage_start : ℤ
  storage_end : ℤ
  success : Bool
  error_message : Option String := none
  transaction_hash : String
  block_number : ℤ
deriving DecidableEq

/-- `MetricsService.flushMetrics` as a buffer transformer. `buffer` is
`this.metrics` on entry; `recordedDuring` are the metrics appended by
`recordEvent` while the flush awaits its inserts; `writeOk` tells whether
the datastore insert of a given record succeeds (the loop throws at the
first failure). Returns the buffer afterwards and whether the flush
completed: on entry with an empty buffer the method returns at once; on
success the flushed batch leaves the buffer; on failure the catch block
re-inserts the whole batch at the front (`unshift`) and rethrows. -/
def flushMetrics (buffer recordedDuring : List EventMetrics)
    (writeOk : EventMetrics → Bool) : List EventMetrics × Bool :=
  if buffer.isEmpty then (buffer ++ recordedDuring, true)
  else if buffer.all writeOk then (recordedDuring, true)
  else (buffer ++ recordedDuring, false)

/-- The row the Scheduler upserts for an empty bucket after carry-forward:
the zero-filled bucket with all four OHLC fields replaced by the
carry-forward price. -/
def carryForwardRow (hourStart : ℤ) (p : ℚ) : HourlyStatsData :=
  { createEmptyHourlyStats hourStart (hourStart + hourMs) with
    open_price := p, high_price := p, low_price := p, close_price := p }

instance : IsTotal SwapRow (fun a b => a.block_timestamp ≤ b.block_timestamp) :=
  ⟨fun a b => le_total a.block_timestamp b.block_timestamp⟩

instance : IsTrans SwapRow (fun a b => a.block_timestamp ≤ b.block_timestamp) :=
  ⟨fun _ _ _ h1 h2 => le_trans h1 h2⟩

/-- A swap row with price 3 at timestamp 1000. -/
def rowP3 : SwapRow :=
  { transaction_hash := "0xa1", block_number := 1, block_timestamp := 1000
    log_index := 0, sender := "0xs1", recipient := "0xr1"
    amount0 := 1, amount1 := -1, sqrt_price_x96 := 1, liquidity := 10
    tick := 0, price_token0 := some 3, swap_type := SwapType.SELL }

/-- A swap row with price 1 at timestamp 2000. -/
def rowP1 : SwapRow :=
  { transaction_hash := "0xa2", block_number := 2, block_timestamp := 2000
    log_index := 0, sender := "0xs2", recipient := "0xr2"
    amount0 := -1, amount1 := 1, sqrt_price_x96 := 1, liquidity := 10
    tick := 0, price_token0 := some 1, swap_type := SwapType.BUY }

/-- A swap row with price 2 at timestamp 1000. -/
def rowP2 : SwapRow :=
  { transaction_hash := "0xb1", block_number := 3, block_timestamp := 1000
    log_index := 1, sender := "0xs3", recipient := "0xr3"
    amount0 := 1, amount1 := -1, sqrt_price_x96 := 1, liquidity := 10
    tick := 0, price_token0 := some 2, swap_type := SwapType.SELL }

/-- A swap row with price 1 at timestamp 2000, distinct key from rowP1. -/
def rowP1b : SwapRow :=
  { transaction_hash := "0xb2", block_number := 4, block_timestamp := 2000
    log_index := 1, sender := "0xs4", recipient := "0xr4"
    amount0 := -1, amount1 := 1, sqrt_price_x96 := 1, liquidity := 10
    tick := 0, price_token0 := some 1, swap_type := SwapType.BUY }

/-- A priced swap (price 3.45) at timestamp 100, inside the bucket
[0, hourMs). -/
def rowPrev345 : SwapRow :=
  { transaction_hash := "0xc1", block_number := 7, block_timestamp := 100
    log_index := 0, sender := "0xs5", recipient := "0xr5"
    amount0 := 1, amount1 := -1, sqrt_price_x96 := 1, liquidity := 10
    tick := 0, price_token0 := some (69/20), swap_type := SwapType.SELL }

/-- An existing user row classified LP (with the LP flag itself false, as an
arbitrary datastore state is allowed to be). -/
def lpTypedRow : UserStatsRow :=
  { address := "0xalice", total_transactions := 5, buy_transactions := 2
    sell_transactions := 3, total_volume_usd := 1000
    largest_transaction_usd := some 500, first_transaction_at := some 100
    last_transaction_at := some 200, is_liquidity_provider := false
    total_liquidity_provided_usd := 0, user_type := some UserType.LP }

/-- An incoming user row classified WHALE. -/
def whaleIncomingRow : UserStatsRow :=
  { address := "0xalice", total_transactions := 6, buy_transactions := 3
    sell_transactions := 3, total_volume_usd := 201000
    largest_transaction_usd := some 200000, first_transaction_at := some 100
    last_transaction_at := some 300, is_liquidity_provider := false
    total_liquidity_provided_usd := 0, user_type := some UserType.WHALE }

/-- An existing user row with the liquidity-provider flag set. -/
def lpFlaggedRow : UserStatsRow :=
  { address := "0xbob", total_transactions := 2, buy_transactions := 1
    sell_transactions := 1, total_volume_usd := 300
    largest_transaction_usd := some 200, first_transaction_at := some 50
    last_transaction_at := some 80, is_liquidity_provider := true
    total_liquidity_provided_usd := 700, user_type := some UserType.LP }

/-- A swap transaction contribution of 150 USD at time 10. -/
def buyTxn150 : UserTxn :=
  { swapType := some SwapType.BUY, usdValue := 150, transactionTime := 10 }

/-- A liquidity-event contribution of 500 USD at time 20. -/
def liqTxn500 : UserTxn :=
  { swapType := none, usdValue := 500, transactionTime := 20 }

/-- A buy swap followed by a Mint liquidity event, for one address. -/
def demoUserEvents : List (UserTxn × Bool × ℚ) :=
  [(buyTxn150, false, 0), (liqTxn500, true, 500)]

/-- The row stored after `demoUserEvents` have been applied from an absent
row. -/
def demoUserRow : UserStatsRow :=
  { address := "0xaddr", total_transactions := 1, buy_transactions := 1
    sell_transactions := 0, total_volume_usd := 650
    largest_transaction_usd := some 500, first_transaction_at := some 10
    last_transaction_at := some 20, is_liquidity_provider := true
    total_liquidity_provided_usd := 500, user_type := some UserType.LP }

/-- Ethereum mainnet USDT address (a recognised stable asset). -/
def addrUSDT : String := "0xdac17f958d2ee523a2206206994597c13d831ec7"

/-- Ethereum mainnet USDC address (a recognised stable asset). -/
def addrUSDC : String := "0xa0b86991c6218b36c1d19d4a2e9eb0ce3606eb48"

/-- Mainnet WETH address (not a recognised stable asset). -/
def addrWETH : String := "0xc02aaa39b223fe8d0a0e5c4f27ead9083c756cc2"

/-- A log metadata record with transaction hash and block number present
but both log-index fields absent. -/
def logNoIndex : EventLogMeta :=
  { transactionHash := some "0xdead", blockNumber := some 5
    index := none, logIndex := none }

/-- A log metadata record missing the transaction hash. -/
def logNoTxHash : EventLogMeta :=
  { transactionHash := none, blockNumber := some 9
    index := some 3, logIndex := none }

/-- A successful swap metric. -/
def demoMetric : EventMetrics :=
  { event_type := MetricEventType.swap, event_timestamp := 1000
    processing_start := 1100, processing_end := 1150
    storage_start := 1150, storage_end := 1200, success := true
    transaction_hash := "0xm1", block_number := 11 }

/-- A second metric, recorded while a flush is in flight. -/
def demoMetricLate : EventMetrics :=
  { event_type := MetricEventType.mint, event_timestamp := 2000
    processing_start := 2100, processing_end := 2150
    storage_start := 2150, storage_end := 2200, success := true
    transaction_hash := "0xm2", block_number := 12 }

/-! ## Helper lemmas -/

/-- One `updateUserStatsForAddress` pass changes the three counters by the
incoming transaction contribution only: +1 on the total for a swap
(non-null `swapType`), +1 on exactly the matching buy/sell counter, and
nothing for a liquidity event. -/
theorem userStats_step_counts (st : Option UserStatsRow) (a : String)
    (t : UserTxn) (l : Bool) (v : ℚ) :
    (updateUserStatsForAddress st a t l v).total_transactions =
      (st.map (fun r => r.total_transactions)).getD 0 +
        (if t.swapType.isSome then 1 else 0) ∧
    (updateUserStatsForAddress st a t l v).buy_transactions =
      (st.map (fun r => r.buy_transactions)).getD 0 +
        (if t.swapType = some SwapType.BUY then 1 else 0) ∧
    (updateUserStatsForAddress st a t l v).sell_transactions =
      (st.map (fun r => r.sell_transactions)).getD 0 +
        (if t.swapType = some SwapType.SELL then 1 else 0) := by
  cases st <;>
    simp [updateUserStatsForAddress, saveOrUpdateUserStats, computeNewUserStats]

/-- Unfolding one event from a sequence of user-stats updates. -/
theorem applyUserEvents_cons (st : Option UserStatsRow) (address : String)
    (e : UserTxn × Bool × ℚ) (es : List (UserTxn × Bool × ℚ)) :
    applyUserEvents st address (e :: es) =
      applyUserEvents
        (some (updateUserStatsForAddress st address e.1 e.2.1 e.2.2))
        address es := by
  simp [applyUserEvents]

/-- The counter invariant `total = buy + sell` is preserved by every
update sequence. -/
theorem applyUserEvents_inv (address : String) :
    ∀ (events : List (UserTxn × Bool × ℚ)) (st : Option UserStatsRow),
      (∀ r0, st = some r0 →
        r0.total_transactions = r0.buy_transactions + r0.sell_transactions) →
      ∀ r, applyUserEvents st address events = some r →
        r.total_transactions = r.buy_transactions + r.sell_transactions := by
  intro events
  induction events with
  | nil =>
    intro st hst r hr
    simp [applyUserEvents] at hr
    exact hst r hr
  | cons e es ih =>
    intro st hst r hr
    rw [applyUserEvents_cons] at hr
    refine ih (some (updateUserStatsForAddress st address e.1 e.2.1 e.2.2))
      ?_ r hr
    intro r0 h0
    have hstep := userStats_step_counts st address e.1 e.2.1 e.2.2
    rw [Option.some_inj] at h0
    subst h0
    rw [hstep.1, hstep.2.1, hstep.2.2]
    have hbase : (st.map (fun r => r.total_transactions)).getD 0 =
        (st.map (fun r => r.buy_transactions)).getD 0 +
          (st.map (fun r => r.sell_transactions)).getD 0 := by
      cases st with
      | none => simp
      | some r1 => simpa using hst r1 rfl
    rw [hbase]
    rcases ht : e.1.swapType with _ | ty
    · simp
    · cases ty <;> simp [ht] <;> ring

/-! ## Claims -/

/-- C1: for an hourly bucket with at least one priced swap, the claimed
invariant `low_price ≤ open_price ≤ high_price ∧ low_price ≤ close_price ≤
high_price` fails on the code: with bucket prices 3 then 1 the computed low
price is 3 (it always equals the open price, because
`Math.min(...prices.filter(p => p > 0), 0)` is 0 and `0 || openPrice` falls
back to the open price) while the close price is 1. -/
theorem hourly_ohlc_invariant_fails :
    (generateHourlyStats [rowP3, rowP1] 0).total_transactions = 2 ∧
    (generateHourlyStats [rowP3, rowP1] 0).low_price = 3 ∧
    (generateHourlyStats [rowP3, rowP1] 0).close_price = 1 ∧
    ¬ ((generateHourlyStats [rowP3, rowP1] 0).low_price ≤
        (generateHourlyStats [rowP3, rowP1] 0).close_price) := by
  decide

/-- C2: the computed low price of a bucket rollup is not the minimum of the
positive prices: for a bucket whose positive prices are 2 then 1 (minimum
1), both the hourly and the daily rollup put out low = 2, the open price. -/
theorem bucket_low_price_not_min :
    bucketPrices (bucketRows [rowP2, rowP1b] 0 hourMs false) = [2, 1] ∧
    (generateHourlyStats [rowP2, rowP1b] 0).low_price = 2 ∧
    bucketPrices (bucketRows [rowP2, rowP1b] 0 (dayMs - 1) true) = [2, 1] ∧
    (generateDailyStats [rowP2, rowP1b] [] 0).low_price = 2 := by
  decide

/-- C3 counterexample: the merge-upsert of `saveOrUpdateUserStats` has no
LP guard — an existing row classified LP is overwritten by an incoming
non-null WHALE classification. -/
theorem user_type_merge_drops_lp :
    lpTypedRow.user_type = some UserType.LP ∧
    whaleIncomingRow.user_type = some UserType.WHALE ∧
    (saveOrUpdateUserStats (some lpTypedRow) whaleIncomingRow).user_type =
      some UserType.WHALE ∧
    (saveOrUpdateUserStats (some lpTypedRow) whaleIncomingRow).user_type ≠
      some UserType.LP := by
  decide

/-- C3 (amended): the merge stores the incoming `user_type` whenever it is
non-null and keeps the existing one otherwise (plain COALESCE, no LP guard
in the merge itself); LP preservation holds one layer up: an update
computed by `UserStatsService` from an existing row whose
`is_liquidity_provider` flag is set always stores LP. -/
theorem user_type_merge_coalesce :
    (∀ (ex inc : UserStatsRow),
      (inc.user_type ≠ none →
        (saveOrUpdateUserStats (some ex) inc).user_type = inc.user_type) ∧
      (inc.user_type = none →
        (saveOrUpdateUserStats (some ex) inc).user_type = ex.user_type)) ∧
    (∀ (ex : UserStatsRow) (a : String) (t : UserTxn) (isLP : Bool) (v : ℚ),
      ex.is_liquidity_provider = true →
      (updateUserStatsForAddress (some ex) a t isLP v).user_type =
        some UserType.LP) := by
  constructor
  · intro ex inc
    constructor
    · intro hne
      rcases h : inc.user_type with _ | ut
      · exact absurd h hne
      · simp [saveOrUpdateUserStats, h]
    · intro hnone
      simp [saveOrUpdateUserStats, hnone]
  · intro ex a t isLP v hLP
    simp [updateUserStatsForAddress, saveOrUpdateUserStats,
      computeNewUserStats, determineUserType, hLP]

/-- C3 witness: both parts of the amended statement at concrete inputs. -/
theorem user_type_merge_coalesce_witness :
    (saveOrUpdateUserStats (some lpTypedRow) whaleIncomingRow).user_type =
      whaleIncomingRow.user_type ∧
    (updateUserStatsForAddress (some lpFlaggedRow) "0xbob" buyTxn150 false
      0).user_type = some UserType.LP :=
  ⟨(user_type_merge_coalesce.1 lpTypedRow whaleIncomingRow).1 (by decide),
    user_type_merge_coalesce.2 lpFlaggedRow "0xbob" buyTxn150 false 0
      (by decide)⟩

/-- C4: along any update sequence for an address, the stored
`total_transactions` value never decreases at the next update: the merged
row carries the value read plus 0 or 1. -/
theorem total_transactions_never_decreases (start : Option UserStatsRow)
    (address : String) (events : List (UserTxn × Bool × ℚ))
    (e : UserTxn × Bool × ℚ) :
    ((applyUserEvents start address events).map
      (fun r => r.total_transactions)).getD 0 ≤
    ((applyUserEvents start address (events ++ [e])).map
      (fun r => r.total_transactions)).getD 0 := by
  have happ : applyUserEvents start address (events ++ [e]) =
      some (updateUserStatsForAddress (applyUserEvents start address events)
        address e.1 e.2.1 e.2.2) := by
    simp [applyUserEvents, List.foldl_append]
  rw [happ]
  have hstep := (userStats_step_counts (applyUserEvents start address events)
    address e.1 e.2.1 e.2.2).1
  simp only [Option.map_some', Option.getD_some]
  rw [hstep]
  have hnn : (0 : ℤ) ≤ (if e.1.swapType.isSome then 1 else 0) := by
    split <;> norm_num
  exact le_add_of_nonneg_right hnn

/-- C9: when any datastore insert of the batch fails, `flushMetrics` puts
the whole batch back at the front of the buffer (ahead of anything recorded
while the flush was in flight) and reports the failure; no buffered metric
is lost. -/
theorem flush_failure_requeues (buffer recordedDuring : List EventMetrics)
    (writeOk : EventMetrics → Bool)
    (hfail : buffer.all writeOk = false) :
    (flushMetrics buffer recordedDuring writeOk).1 = buffer ++ recordedDuring ∧
    (flushMetrics buffer recordedDuring writeOk).2 = false ∧
    ∀ m ∈ buffer, m ∈ (flushMetrics buffer recordedDuring writeOk).1 := by
  have hne : buffer.isEmpty = false := by
    cases buffer with
    | nil => simp at hfail
    | cons x xs => rfl
  refine ⟨?_, ?_, ?_⟩
  · simp [flushMetrics, hne, hfail]
  · simp [flushMetrics, hne, hfail]
  · intro m hm
    simp only [flushMetrics, hne, Bool.false_eq_true, if_false, hfail]
    exact List.mem_append.mpr (Or.inl hm)

/-- C9 witness: a concrete one-element batch whose insert fails, with one
metric recorded during the flush. -/
theorem flush_failure_requeues_witness :
    (flushMetrics [demoMetric] [demoMetricLate] (fun _ => false)).1 =
      [demoMetric] ++ [demoMetricLate] ∧
    (flushMetrics [demoMetric] [demoMetricLate] (fun _ => false)).2 = false ∧
    ∀ m ∈ [demoMetric],
      m ∈ (flushMetrics [demoMetric] [demoMetricLate] (fun _ => false)).1 :=
  flush_failure_requeues [demoMetric] [demoMetricLate] (fun _ => false) rfl

/-- C10: starting from an absent row, every row produced by the update
sequence satisfies `total_transactions = buy_transactions +
sell_transactions`: a swap event adds 1 to the total and to exactly one of
the buy/sell counters, a liquidity event (null swapType) to none. -/
theorem total_eq_buy_plus_sell (address : String)
    (events : List (UserTxn × Bool × ℚ)) (r : UserStatsRow)
    (h : applyUserEvents none address events = some r) :
    r.total_transactions = r.buy_transactions + r.sell_transactions :=
  applyUserEvents_inv address events none (by intro r0 h0; simp at h0) r h

/-- C10 witness: a buy swap followed by a Mint liquidity event. -/
theorem total_eq_buy_plus_sell_witness :
    demoUserRow.total_transactions =
      demoUserRow.buy_transactions + demoUserRow.sell_transactions :=
  total_eq_buy_plus_sell "0xaddr" demoUserEvents demoUserRow (by
    norm_num [applyUserEvents, updateUserStatsForAddress,
      saveOrUpdateUserStats, computeNewUserStats, determineUserType,
      calculateLargestTransaction, calculateFirstTransaction,
      calculateLastTransaction, pgLeast, pgGreatest, buyTxn150, liqTxn500,
      demoUserEvents, demoUserRow]
    exact ⟨by decide, by decide⟩)

/-- A row always collides with its own key. -/
theorem keyMatches_self (s : SwapRow) :
    keyMatches s.transaction_hash s.log_index s = true := by
  simp [keyMatches]

/-- C5: writing the same raw swap twice leaves the store exactly as after
the first write, and exactly one row carries its `(transaction_hash,
log_index)` key (given that the store, whose key is unique by constraint,
held at most one such row before). -/
theorem saveSwap_duplicate_absorbed (store : List SwapRow) (s : SwapRow)
    (h : countKey store s.transaction_hash s.log_index ≤ 1) :
    saveSwap (saveSwap store s) s = saveSwap store s ∧
    countKey (saveSwap (saveSwap store s) s) s.transaction_hash
      s.log_index = 1 := by
  by_cases hany : store.any (keyMatches s.transaction_hash s.log_index)
  · have h1 : saveSwap store s = store := by simp [saveSwap, hany]
    have hx : ∃ x ∈ store, keyMatches s.transaction_hash s.log_index x :=
      List.any_eq_true.mp hany
    rcases hx with ⟨x, hxmem, hxkey⟩
    have hge : 1 ≤ countKey store s.transaction_hash s.log_index := by
      have : x ∈ store.filter (keyMatches s.transaction_hash s.log_index) :=
        List.mem_filter.mpr ⟨hxmem, hxkey⟩
      have hlen := List.length_pos.mpr (List.ne_nil_of_mem this)
      simpa [countKey] using hlen
    constructor
    · rw [h1]
      exact h1
    · rw [h1, h1]
      omega
  · have h1 : saveSwap store s = store ++ [s] := by simp [saveSwap, hany]
    have hself : (store ++ [s]).any
        (keyMatches s.transaction_hash s.log_index) = true := by
      rw [List.any_append]
      simp [keyMatches_self]
    have h2 : saveSwap (store ++ [s]) s = store ++ [s] := by
      simp [saveSwap, hself]
    have hzero : store.filter (keyMatches s.transaction_hash s.log_index)
        = [] := by
      rw [List.filter_eq_nil_iff]
      intro x hxmem
      exact List.any_eq_false.mp (Bool.eq_false_iff.mpr hany) x hxmem
    constructor
    · rw [h1, h2]
    · rw [h1, h2]
      simp [countKey, List.filter_append, hzero, keyMatches_self]

/-- C5 witness: an empty store and a concrete swap row. -/
theorem saveSwap_duplicate_absorbed_witness :
    saveSwap (saveSwap [] rowP3) rowP3 = saveSwap [] rowP3 ∧
    countKey (saveSwap (saveSwap [] rowP3) rowP3) rowP3.transaction_hash
      rowP3.log_index = 1 :=
  saveSwap_duplicate_absorbed [] rowP3 (by decide)

/-- C6 counterexample: with token1 the recognised stable asset USDC but
token0 the (also recognised) stable asset USDT, `calculateUSDValue` returns
the absolute amount of token0, not of token1 — the token0 check comes
first. -/
theorem usd_value_token1_stable_fails :
    isStableCoin addrUSDC = true ∧
    calculateUSDValue none none 5 7 addrUSDT addrUSDC = some 5 ∧
    (5 : ℚ) ≠ |(7 : ℚ)| := by
  decide

/-- C6 (amended): whenever token1 is a recognised stable asset and token0
is not, `calculateUSDValue` returns the absolute readable amount of token1,
whatever the price oracles report — the price lookups belong to the branch
where neither token is stable. -/
theorem usd_value_token1_stable (price0 price1 : Option ℚ) (a0 a1 : ℚ)
    (t0 t1 : String) (h1 : isStableCoin t1 = true)
    (h0 : isStableCoin t0 = false) :
    calculateUSDValue price0 price1 a0 a1 t0 t1 = some |a1| := by
  simp [calculateUSDValue, h0, h1]

/-- C6 witness: a WETH/USDC pool with one price source available. -/
theorem usd_value_token1_stable_witness :
    calculateUSDValue (some 3) none 5 (-7) addrWETH addrUSDC = some 7 :=
  (usd_value_token1_stable (some 3) none 5 (-7) addrWETH addrUSDC
    (by decide) (by decide)).trans (by decide)

/-- C7 counterexample: a log whose index fields are both absent (tx hash
and block number present) is not dropped — the extraction defaults the log
index to 0 and the downstream handler is invoked. -/
theorem missing_log_index_not_dropped :
    (handleSwapLog "0xs" "0xr" 1 (-1) 1 1 0 (some logNoIndex)).isSome =
      true ∧
    handleSwapLog "0xs" "0xr" 1 (-1) 1 1 0 (some logNoIndex) =
      some { sender := "0xs", recipient := "0xr", amount0 := 1,
             amount1 := -1, sqrt_price_x96 := 1, liquidity := 1, tick := 0,
             transaction_hash := "0xdead", log_index := 0,
             block_number := 5 } := by
  decide

/-- C7 (amended): an event whose log metadata misses the transaction hash
or the block number is dropped (the downstream handler is never invoked);
a missing log index does not drop the event — it is defaulted to 0. -/
theorem log_metadata_validation :
    (∀ (sender recipient : String) (a0 a1 sp lq tk : ℤ)
        (lg : Option EventLogMeta),
      lg.bind (fun l => l.transactionHash) = none ∨
        lg.bind (fun l => l.blockNumber) = none →
      handleSwapLog sender recipient a0 a1 sp lq tk lg = none) ∧
    (∀ (sender recipient : String) (a0 a1 sp lq tk : ℤ) (h : String)
        (b : ℤ), h ≠ "" → b ≠ 0 →
      (handleSwapLog sender recipient a0 a1 sp lq tk
        (some { transactionHash := some h, blockNumber := some b,
                index := none, logIndex := none })).map
        (fun e => e.log_index) = some 0) := by
  constructor
  · intro sender recipient a0 a1 sp lq tk lg hmiss
    rcases hmiss with hmiss | hmiss
    · simp [handleSwapLog, validateAndExtractLogInfo, extractEventLogInfo,
        hmiss]
    · rcases hx : lg.bind (fun l => l.transactionHash) with _ | tx <;>
        simp [handleSwapLog, validateAndExtractLogInfo, extractEventLogInfo,
          hmiss, hx]
  · intro sender recipient a0 a1 sp lq tk h b hne hb0
    simp [handleSwapLog, validateAndExtractLogInfo, extractEventLogInfo,
      hne, hb0]

/-- C7 witness: both parts at concrete logs. -/
theorem log_metadata_validation_witness :
    handleSwapLog "0xs" "0xr" 1 2 3 4 5 (some logNoTxHash) = none ∧
    (handleSwapLog "0xs" "0xr" 1 2 3 4 5
      (some { transactionHash := some "0xbeef", blockNumber := some 7,
              index := none, logIndex := none })).map
      (fun e => e.log_index) = some 0 :=
  ⟨log_metadata_validation.1 "0xs" "0xr" 1 2 3 4 5 (some logNoTxHash)
      (Or.inl rfl),
    log_metadata_validation.2 "0xs" "0xr" 1 2 3 4 5 "0xbeef" 7 (by decide)
      (by decide)⟩

/-- A list whose last element exists contains it. -/
theorem mem_of_getLast?_eq {α : Type} :
    ∀ (l : List α) (a : α), l.getLast? = some a → a ∈ l := by
  intro l
  induction l with
  | nil => intro a h; simp at h
  | cons x rest ih =>
    intro a h
    cases rest with
    | nil => simp at h; simp [h]
    | cons y rest2 =>
      rw [List.getLast?_cons_cons] at h
      exact List.mem_cons_of_mem x (ih a h)

/-- In a pairwise-related list, every element is the last one or relates to
it. -/
theorem pairwise_rel_getLast {α : Type} {R : α → α → Prop} :
    ∀ (l : List α), l.Pairwise R → ∀ x ∈ l, ∀ y, l.getLast? = some y →
      x = y ∨ R x y := by
  intro l
  induction l with
  | nil => intro _ x hx; simp at hx
  | cons a rest ih =>
    intro hp x hx y hy
    rcases List.pairwise_cons.mp hp with ⟨ha, hrest⟩
    cases rest with
    | nil =>
      simp at hy
      rcases List.mem_singleton.mp hx with rfl
      exact Or.inl hy
    | cons b rest2 =>
      rw [List.getLast?_cons_cons] at hy
      rcases List.mem_cons.mp hx with rfl | hx2
      · exact Or.inr (ha y (mem_of_getLast?_eq _ y hy))
      · exact ih hrest x hx2 y hy

/-- `filterMap` keeps the last element when it is mapped to a value. -/
theorem getLast?_filterMap_eq {α β : Type} (f : α → Option β) :
    ∀ (l : List α) (a : α) (b : β), l.getLast? = some a → f a = some b →
      (l.filterMap f).getLast? = some b := by
  intro l
  induction l with
  | nil => intro a b h; simp at h
  | cons x rest ih =>
    intro a b h hfb
    cases rest with
    | nil =>
      simp at h
      subst h
      simp [List.filterMap_cons, hfb]
    | cons y rest2 =>
      rw [List.getLast?_cons_cons] at h
      have ihh := ih a b h hfb
      rcases hfx : f x with _ | c
      · rw [List.filterMap_cons, hfx]
        exact ihh
      · rw [List.filterMap_cons, hfx]
        rcases hmm : (y :: rest2).filterMap f with _ | ⟨d, m2⟩
        · rw [hmm] at ihh; simp at ihh
        · rw [hmm] at ihh
          exact List.getLast?_cons_cons.trans ihh

/-- `filter` keeps the last element when it satisfies the predicate. -/
theorem getLast?_filter_eq {α : Type} (p : α → Bool) :
    ∀ (l : List α) (a : α), l.getLast? = some a → p a = true →
      (l.filter p).getLast? = some a := by
  intro l
  induction l with
  | nil => intro a h; simp at h
  | cons x rest ih =>
    intro a h hpa
    cases rest with
    | nil =>
      simp at h
      subst h
      simp [List.filter_cons, hpa]
    | cons y rest2 =>
      rw [List.getLast?_cons_cons] at h
      have ihh := ih a h hpa
      rcases hpx : p x with _ | _
      · rw [List.filter_cons, if_neg (by simp [hpx])]
        exact ihh
      · rw [List.filter_cons, if_pos (by simp [hpx])]
        rcases hmm : (y :: rest2).filter p with _ | ⟨d, m2⟩
        · rw [hmm] at ihh; simp at ihh
        · rw [hmm] at ihh
          exact List.getLast?_cons_cons.trans ihh

/-- `maxByTimestamp` picks an element of the list. -/
theorem maxByTimestamp_mem :
    ∀ (l : List SwapRow) (a : SwapRow), maxByTimestamp l = some a →
      a ∈ l := by
  intro l
  induction l with
  | nil => intro a h; simp [maxByTimestamp] at h
  | cons s rest ih =>
    intro a h
    rcases hrest : maxByTimestamp rest with _ | b
    · simp only [maxByTimestamp, hrest, Option.some_inj] at h
      simp [h]
    · simp only [maxByTimestamp, hrest] at h
      by_cases hlt : s.block_timestamp < b.block_timestamp
      · rw [if_pos hlt, Option.some_inj] at h
        subst h
        exact List.mem_cons_of_mem s (ih b hrest)
      · rw [if_neg hlt, Option.some_inj] at h
        simp [h]

/-- When one element strictly dominates every other element's timestamp,
`maxByTimestamp` returns it. -/
theorem maxByTimestamp_eq_of_unique_max :
    ∀ (l : List SwapRow) (sStar : SwapRow), sStar ∈ l →
      (∀ x ∈ l, x ≠ sStar → x.block_timestamp < sStar.block_timestamp) →
      maxByTimestamp l = some sStar := by
  intro l
  induction l with
  | nil => intro sStar h; simp at h
  | cons s rest ih =>
    intro sStar hmem hmax
    rcases List.mem_cons.mp hmem with heq | hmemrest
    · subst heq
      rcases hrest : maxByTimestamp rest with _ | b
      · simp [maxByTimestamp, hrest]
      · have hbmem := maxByTimestamp_mem rest b hrest
        by_cases hbs : b = sStar
        · subst hbs
          simp [maxByTimestamp, hrest]
        · have hblt := hmax b (List.mem_cons_of_mem _ hbmem) hbs
          simp only [maxByTimestamp, hrest]
          rw [if_neg (not_lt.mpr (le_of_lt hblt))]
    · have hmaxrest := ih sStar hmemrest
        (fun x hx hne => hmax x (List.mem_cons_of_mem s hx) hne)
      by_cases hss : s = sStar
      · subst hss
        simp only [maxByTimestamp, hmaxrest]
        rw [if_neg (lt_irrefl _)]
      · have hslt := hmax s (List.mem_cons_self s rest) hss
        simp only [maxByTimestamp, hmaxrest]
        rw [if_pos hslt]

/-- Membership in a bucket selection. -/
theorem mem_bucketRows {swaps : List SwapRow} {lo hi : ℤ} {closedHi : Bool}
    {x : SwapRow} :
    x ∈ bucketRows swaps lo hi closedHi ↔
      x ∈ swaps ∧ lo ≤ x.block_timestamp ∧
        (if closedHi then x.block_timestamp ≤ hi
          else x.block_timestamp < hi) ∧
        x.price_token0.isSome = true := by
  cases closedHi <;>
    simp [bucketRows, orderByTimestampAsc, List.mem_insertionSort,
      List.mem_filter, and_assoc]

/-- Bucket selections are sorted by timestamp. -/
theorem sorted_bucketRows (swaps : List SwapRow) (lo hi : ℤ)
    (closedHi : Bool) :
    (bucketRows swaps lo hi closedHi).Sorted
      (fun a b => a.block_timestamp ≤ b.block_timestamp) :=
  List.sorted_insertionSort _ _

/-- An empty bucket selection. -/
theorem bucketRows_eq_nil {swaps : List SwapRow} {lo hi : ℤ}
    {closedHi : Bool}
    (hnone : ∀ s ∈ swaps, ¬(lo ≤ s.block_timestamp ∧
      (if closedHi then s.block_timestamp ≤ hi
        else s.block_timestamp < hi) ∧
      s.price_token0.isSome = true)) :
    bucketRows swaps lo hi closedHi = [] :=
  List.eq_nil_iff_forall_not_mem.mpr (fun x hx => by
    rcases mem_bucketRows.mp hx with ⟨h1, h2, h3, h4⟩
    exact hnone x h1 ⟨h2, h3, h4⟩)

/-- The hourly rollup of an empty bucket is the zero-filled bucket. -/
theorem generateHourlyStats_of_empty (swaps : List SwapRow) (hourStart : ℤ)
    (hnil : bucketRows swaps hourStart (hourStart + hourMs) false = []) :
    generateHourlyStats swaps hourStart =
      createEmptyHourlyStats hourStart (hourStart + hourMs) := by
  simp [generateHourlyStats, hnil]

/-- The close price of a non-empty hourly bucket is the last entry of the
bucket price list. -/
theorem generateHourlyStats_close (swaps : List SwapRow) (hourStart : ℤ)
    (hne : (bucketRows swaps hourStart (hourStart + hourMs) false).isEmpty
      = false) :
    (generateHourlyStats swaps hourStart).close_price =
      (bucketPrices (bucketRows swaps hourStart (hourStart + hourMs)
        false)).getLast?.getD 0 := by
  simp only [generateHourlyStats]
  rw [if_neg (by simp [hne])]

/-- C8: at the top of hour `h + hourMs`, with the bucket `[h, h + hourMs)`
holding no priced swap, no `hourly_stats` row stored yet for `h`, and the
most recent priced swap before hour `h` lying in the preceding bucket
`[h - hourMs, h)` with price 3.45 — so that the preceding bucket's rollup
closed at 3.45 (first conjunct) — the hourly job upserts for the empty
bucket a row whose open, high, low and close prices all equal 3.45. -/
theorem hourly_empty_bucket_carry_forward
    (hstats : List HourlyStatsData) (swaps : List SwapRow) (h : ℤ)
    (sStar : SwapRow)
    (hEmpty : ∀ s ∈ swaps, h ≤ s.block_timestamp →
      s.block_timestamp < h + hourMs → s.price_token0 = none)
    (hNoRow : ∀ row ∈ hstats, row.hour_start ≠ h)
    (hMem : sStar ∈ swaps)
    (hPrice : sStar.price_token0 = some (69/20))
    (hWinLo : h - hourMs ≤ sStar.block_timestamp)
    (hWinHi : sStar.block_timestamp < h)
    (hLatest : ∀ s ∈ swaps, s.price_token0.isSome = true →
      s.block_timestamp < h + hourMs → s ≠ sStar →
      s.block_timestamp < sStar.block_timestamp) :
    (generateHourlyStats swaps (h - hourMs)).close_price = 69/20 ∧
    executeHourlyStatsTask hstats swaps (h + hourMs) =
      hstats ++ [carryForwardRow h (69/20)] := by
  have hposHour : (0 : ℤ) < hourMs := by norm_num [hourMs]
  have harithA : h - hourMs + hourMs = h := by ring
  have harithB : h + hourMs - hourMs = h := by ring
  -- the previous bucket selection ends with sStar
  have hmemselA : sStar ∈ bucketRows swaps (h - hourMs)
      (h - hourMs + hourMs) false := by
    refine mem_bucketRows.mpr ⟨hMem, hWinLo, ?_, by simp [hPrice]⟩
    simp only [if_neg (by simp : ¬ (false = true))]
    omega
  have hneA : bucketRows swaps (h - hourMs) (h - hourMs + hourMs) false
      ≠ [] := List.ne_nil_of_mem hmemselA
  have hlast := List.getLast?_eq_getLast_of_ne_nil hneA
  have hLastSel : (bucketRows swaps (h - hourMs) (h - hourMs + hourMs)
      false).getLast? = some sStar := by
    rcases pairwise_rel_getLast _
        (sorted_bucketRows swaps (h - hourMs) (h - hourMs + hourMs) false)
        sStar hmemselA _ hlast with heq | hle
    · rw [hlast, ← heq]
    · by_cases hys : (bucketRows swaps (h - hourMs) (h - hourMs + hourMs)
          false).getLast hneA = sStar
      · rw [hlast, hys]
      · exfalso
        have hymem := List.getLast_mem hneA
        rcases mem_bucketRows.mp hymem with ⟨hy1, _, hy3, hy4⟩
        have hy3b : ((bucketRows swaps (h - hourMs) (h - hourMs + hourMs)
            false).getLast hneA).block_timestamp < h + hourMs := by
          simp only [if_neg (by simp : ¬ (false = true))] at hy3
          omega
        have := hLatest _ hy1 hy4 hy3b hys
        omega
  -- first conjunct: the preceding bucket closed at 3.45
  have hclose : (generateHourlyStats swaps (h - hourMs)).close_price =
      69/20 := by
    rw [generateHourlyStats_close swaps (h - hourMs)
      (by simpa [List.isEmpty_iff] using hneA)]
    have h1 := getLast?_filterMap_eq (fun s => s.price_token0) _ sStar
      (69/20) hLastSel hPrice
    have h2 := getLast?_filter_eq (fun p => decide (0 < p)) _ (69/20) h1
      (by norm_num)
    rw [bucketPrices] at *
    rw [h2]
    rfl
  refine ⟨hclose, ?_⟩
  -- the bucket [h, h + hourMs) is empty
  have hnil : bucketRows swaps h (h + hourMs) false = [] := by
    refine bucketRows_eq_nil (fun s hs hc => ?_)
    rcases hc with ⟨hc1, hc2, hc3⟩
    simp only [if_neg (by simp : ¬ (false = true))] at hc2
    rw [hEmpty s hs hc1 hc2] at hc3
    simp at hc3
  have hgen : generateHourlyStats swaps h =
      createEmptyHourlyStats h (h + hourMs) :=
    generateHourlyStats_of_empty swaps h hnil
  -- the previous-close lookup falls back to sStar's price
  have hlsb : latestPricedSwapBefore swaps (h + hourMs) = some sStar := by
    rw [latestPricedSwapBefore]
    apply maxByTimestamp_eq_of_unique_max
    · refine List.mem_filter.mpr ⟨hMem, ?_⟩
      simp [hPrice]
      omega
    · intro x hx hne
      have hxp := List.mem_filter.mp hx
      have hxc := hxp.2
      simp only [Bool.and_eq_true, decide_eq_true_eq] at hxc
      exact hLatest x hxp.1 hxc.2 hxc.1 hne
  have hfil : hstats.filter (fun r => r.hour_start == h) = [] := by
    rw [List.filter_eq_nil_iff]
    intro r hr
    simp [hNoRow r hr]
  have hprev : getPreviousHourClosePrice hstats swaps (h + hourMs) =
      some (69/20) := by
    simp only [getPreviousHourClosePrice, harithB, hfil, List.head?_nil,
      hlsb, hPrice]
    rw [if_neg (by norm_num)]
  -- the task appends the carry-forward row
  simp only [executeHourlyStatsTask, harithB, hprev, hgen]
  rw [show (createEmptyHourlyStats h (h + hourMs)).open_price = (0 : ℚ)
    from rfl]
  rw [if_pos rfl]
  show saveHourlyStats hstats (carryForwardRow h (69/20)) =
    hstats ++ [carryForwardRow h (69/20)]
  have hany : hstats.any
      (fun r => r.hour_start == (carryForwardRow h (69/20)).hour_start) =
      false := by
    rw [List.any_eq_false]
    intro r hr
    simp [carryForwardRow, createEmptyHourlyStats, hNoRow r hr]
  simp [saveHourlyStats, hany]

/-- C8 witness: a single priced swap at price 3.45 inside the hour before
an empty bucket, an empty `hourly_stats` store, run at the top of the
following hour. -/
theorem hourly_empty_bucket_carry_forward_witness :
    (generateHourlyStats [rowPrev345] (hourMs - hourMs)).close_price =
      69/20 ∧
    executeHourlyStatsTask [] [rowPrev345] (hourMs + hourMs) =
      [] ++ [carryForwardRow hourMs (69/20)] :=
  hourly_empty_bucket_carry_forward [] [rowPrev345] hourMs rowPrev345
    (by
      intro s hs h1 h2
      rw [List.mem_singleton] at hs
      subst hs
      norm_num [rowPrev345, hourMs] at h1)
    (by intro r hr; exact absurd hr (List.not_mem_nil r))
    (List.mem_singleton.mpr rfl)
    rfl
    (by norm_num [rowPrev345, hourMs])
    (by norm_num [rowPrev345, hourMs])
    (by
      intro s hs _ _ hne
      rw [List.mem_singleton] at hs
      exact absurd hs hne)

end UniswapDemo
